import Mathlib

/-!
Verification development for the incremental aircraft-enrichment pipeline
(src/enrich_aircraft.py of the adsb-analytics repository).

Modelling conventions:
- JSON values (the bodies returned by the external lookup service, and the
  Python dicts passed to the store writer) are a small inductive type.
- Python dict truthiness and dict.get are modelled exactly (missing key gives
  None, an empty dict is falsy).
- ISO-8601 UTC timestamp strings compare lexicographically exactly as the
  instants they denote, so timestamps are modelled as integers and one day as
  86400 units, mirroring datetime subtraction of timedelta(days=n).
- The aircraft table (observations) is a list of rows; the aircraft_enriched
  table is a list of records whose hex column is the primary key, so the
  LEFT JOIN of the selection queries matches at most one enrichment row per
  observation row and is modelled with find? on the record list.
- SQL ORDER BY with the two-component descending keys of the selection
  queries is modelled by a stable insertion sort; LIMIT is List.take.
-/

/-- JSON values, as produced by response.json() in the lookup client and as
held in the Python dicts passed to save_enrichment. -/
inductive Json where
  | null : Json
  | str : String → Json
  | num : Int → Json
  | bool : Bool → Json
  | obj : List (String × Json) → Json
  | arr : List Json → Json

/-- SQL IS NULL on a stored value; Python None maps to SQL NULL. -/
def Json.isNull : Json → Bool
  | .null => true
  | _ => false

/-- Python truthiness of a JSON value: None, 0, False, empty string, empty
dict and empty list are falsy; everything else is truthy. -/
def Json.truthy : Json → Bool
  | .null => false
  | .str s => !(s.data.isEmpty)
  | .num n => !(n == 0)
  | .bool b => b
  | .obj fs => !(fs.isEmpty)
  | .arr es => !(es.isEmpty)

/-- Python dict.get with an explicit default: the stored value if the key is
present (even when that value is None), the default otherwise; on a non-dict
the call sites guard with isinstance, so any non-object argument simply
yields the default here. -/
def Json.getD (j : Json) (k : String) (d : Json) : Json :=
  match j with
  | .obj fs =>
    match fs.find? (fun p => p.1 == k) with
    | some p => p.2
    | none => d
  | _ => d

/-- Python dict.get with the implicit default None. -/
def Json.get (j : Json) (k : String) : Json :=
  j.getD k .null

/-- ASCII uppercasing of one character, as Python str.upper acts on the
characters appearing in hex identifiers. -/
def upperChar (c : Char) : Char :=
  if 'a' ≤ c ∧ c ≤ 'z' then Char.ofNat (c.toNat - 32) else c

/-- Python str.upper restricted to ASCII, which is all that occurs in
transponder hex identifiers. -/
def pyUpper (s : String) : String :=
  ⟨s.data.map upperChar⟩

/-- Outcome of the HTTP request issued by enrich_from_adsbdb, before the
function's own response handling: either a status code with a parsed JSON
body, or an exception from requests.get (transport failure, timeout), or an
exception from response.json() (malformed payload). -/
inductive Response where
  | ok : Nat → Json → Response
  | transportError : Response
  | badPayload : Response

/-- Result of enrich_from_adsbdb: a populated dict, a silent None return
(not found), or a None return reached through the except-clause that prints
the error for the failing hex identifier. -/
inductive LookupResult where
  | found : Json → LookupResult
  | notFound : LookupResult
  | error : LookupResult

/-- The dict literal built by enrich_from_adsbdb from a truthy aircraft
object: provider fields mapped to the store's field names, source tagged
with the provider name. -/
def mkEnrichDict (ac : Json) : Json :=
  .obj [("registration", ac.get "registration"),
        ("type", ac.get "icao_type"),
        ("manufacturer", ac.get "manufacturer"),
        ("operator", ac.get "registered_owner"),
        ("origin_country", ac.get "registered_owner_country_name"),
        ("source", .str "adsbdb")]

/-- Handling of an HTTP 200 body by enrich_from_adsbdb.  For a dict body:
when the response key holds a dict, its aircraft entry is taken; a truthy
dict aircraft is mapped to the enrichment dict, a truthy non-dict aircraft
raises inside the try (AttributeError on .get) and is caught, a falsy
aircraft falls through to return None.  When the response key is absent or
holds a non-dict, the unknown-aircraft comparison runs and the function
returns None either way.  A non-dict body raises on the membership test or
on .get and is caught. -/
def handleBody200 (body : Json) : LookupResult :=
  match body with
  | .obj _ =>
    match body.get "response" with
    | .obj rfields =>
      if ((Json.obj rfields).get "aircraft").truthy then
        match (Json.obj rfields).get "aircraft" with
        | .obj _ => .found (mkEnrichDict ((Json.obj rfields).get "aircraft"))
        | _ => .error
      else .notFound
    | _ => .notFound
  | _ => .error

/-- The lookup client enrich_from_adsbdb as a function of the transport
outcome for the requested hex identifier: a raised exception is caught and
yields None with an error line; HTTP 200 is handled by handleBody200; every
other status (notably 404) falls through to return None. -/
def enrich_from_adsbdb (resp : Response) : LookupResult :=
  match resp with
  | .transportError => .error
  | .badPayload => .error
  | .ok status body =>
    if status == 200 then handleBody200 body else .notFound

/-- One row of the aircraft_enriched table. -/
structure EnrichmentRecord where
  hex : String
  registration : Json
  type : Json
  manufacturer : Json
  operator : Json
  origin_country : Json
  last_updated : Int
  source : Json

/-- The aircraft_enriched table, hex being the primary key. -/
abbrev Store := List EnrichmentRecord

/-- The row built and inserted by save_enrichment: key uppercased, the five
descriptive fields read with dict.get (missing means NULL), last_updated set
to the write time, source read with the fallback default. -/
def savedRecord (hex_code : String) (data : Json) (now : Int) : EnrichmentRecord :=
  { hex := pyUpper hex_code,
    registration := data.get "registration",
    type := data.get "type",
    manufacturer := data.get "manufacturer",
    operator := data.get "operator",
    origin_country := data.get "origin_country",
    last_updated := now,
    source := data.getD "source" (.str "unknown") }

/-- save_enrichment: INSERT OR REPLACE keyed on hex, i.e. any existing row
with the same (uppercased) key is dropped and the freshly built row is
inserted; committed immediately. -/
def save_enrichment (store : Store) (hex_code : String) (data : Json) (now : Int) : Store :=
  savedRecord hex_code data now :: store.filter (fun r => r.hex != pyUpper hex_code)

/-- The primary-key constraint of the aircraft_enriched table: pairwise
distinct hex keys. -/
def keyUnique (store : Store) : Prop :=
  store.Pairwise (fun r₁ r₂ => r₁.hex ≠ r₂.hex)

/-- One row of the aircraft table (an observation); hex is nullable there,
timestamp is the ISO-8601 UTC reception time. -/
structure Obs where
  hex : Option String
  timestamp : Int

/-- The selection predicate of both selection queries, from the LEFT JOIN of
aircraft with aircraft_enriched: e.hex IS NULL OR e.registration IS NULL. -/
def needsEnrichment (store : Store) (h : String) : Bool :=
  match store.find? (fun r => r.hex == h) with
  | none => true
  | some r => r.registration.isNull

/-- WHERE clause of get_recent_unenriched_hex_codes: timestamp strictly
newer than the cutoff, hex not null, and the enrichment predicate. -/
def recentRows (aircraft : List Obs) (store : Store) (cutoff : Int) : List Obs :=
  aircraft.filter (fun a =>
    match a.hex with
    | some h => decide (cutoff < a.timestamp) && needsEnrichment store h
    | none => false)

/-- WHERE clause of get_todays_unenriched_hex_codes: timestamp at or after
the start of the current UTC day, hex not null, and the enrichment
predicate. -/
def todayRows (aircraft : List Obs) (store : Store) (todayStart : Int) : List Obs :=
  aircraft.filter (fun a =>
    match a.hex with
    | some h => decide (todayStart ≤ a.timestamp) && needsEnrichment store h
    | none => false)

/-- The rows of one GROUP BY group. -/
def rowsFor (rows : List Obs) (h : String) : List Obs :=
  rows.filter (fun a => a.hex == some h)

/-- MAX(timestamp) over a group (only ever used on nonempty groups). -/
def maxTimestamp : List Obs → Int
  | [] => 0
  | a :: rest => (rest.map (fun b => b.timestamp)).foldl max a.timestamp

/-- One grouped row of the recency query: hex, last_seen, ping_count. -/
structure Ranked where
  hex : String
  last_seen : Int
  ping_count : Nat

/-- The grouped row for one hex over the WHERE-filtered rows; note that
ping_count is COUNT(*) over the filtered rows, i.e. the observations inside
the window, because the WHERE clause applies before GROUP BY. -/
def rankedOf (rows : List Obs) (h : String) : Ranked :=
  { hex := h,
    last_seen := maxTimestamp (rowsFor rows h),
    ping_count := (rowsFor rows h).length }

/-- Strict precedence for ORDER BY last_seen DESC, ping_count DESC. -/
def recencyPrec (x y : Ranked) : Bool :=
  decide (y.last_seen < x.last_seen) ||
    (decide (x.last_seen = y.last_seen) && decide (y.ping_count < x.ping_count))

/-- Strict precedence for ORDER BY ping_count DESC. -/
def countPrec (x y : Ranked) : Bool :=
  decide (y.ping_count < x.ping_count)

/-- Stable insertion into a sorted list: x goes before the first element it
strictly precedes. -/
def insertByPrec {α : Type} (prec : α → α → Bool) (x : α) : List α → List α
  | [] => [x]
  | y :: ys => if prec x y then x :: y :: ys else y :: insertByPrec prec x ys

/-- Stable insertion sort by a strict precedence. -/
def sortByPrec {α : Type} (prec : α → α → Bool) : List α → List α
  | [] => []
  | x :: xs => insertByPrec prec x (sortByPrec prec xs)

/-- The distinct hex values of the filtered rows (GROUP BY a.hex). -/
def groupedHexes (rows : List Obs) : List String :=
  (rows.filterMap (fun a => a.hex)).dedup

/-- Grouped and ordered result rows of the recency query, before LIMIT. -/
def recentRankedList (aircraft : List Obs) (store : Store) (cutoff : Int) : List Ranked :=
  sortByPrec recencyPrec ((groupedHexes (recentRows aircraft store cutoff)).map
    (rankedOf (recentRows aircraft store cutoff)))

/-- Hex column of the ordered recency-query result, before LIMIT. -/
def recentCandidateHexes (aircraft : List Obs) (store : Store) (cutoff : Int) : List String :=
  (recentRankedList aircraft store cutoff).map (fun r => r.hex)

/-- get_recent_unenriched_hex_codes: cutoff is now minus the configured
number of days; the ordered hex column truncated by LIMIT. -/
def get_recent_unenriched_hex_codes (aircraft : List Obs) (store : Store)
    (now : Int) (days : Nat) (limit : Nat) : List String :=
  (recentCandidateHexes aircraft store (now - 86400 * (days : Int))).take limit

/-- Grouped and ordered result rows of the same-day query, before LIMIT. -/
def todaysRankedList (aircraft : List Obs) (store : Store) (todayStart : Int) : List Ranked :=
  sortByPrec countPrec ((groupedHexes (todayRows aircraft store todayStart)).map
    (rankedOf (todayRows aircraft store todayStart)))

/-- Hex column of the ordered same-day-query result, before LIMIT. -/
def todaysCandidateHexes (aircraft : List Obs) (store : Store) (todayStart : Int) : List String :=
  (todaysRankedList aircraft store todayStart).map (fun r => r.hex)

/-- get_todays_unenriched_hex_codes: the ordered hex column truncated by
LIMIT. -/
def get_todays_unenriched_hex_codes (aircraft : List Obs) (store : Store)
    (todayStart : Int) (limit : Nat) : List String :=
  (todaysCandidateHexes aircraft store todayStart).take limit

/-- Observable events of one run of main, in order: a lookup-client call for
a hex identifier, the except-clause error line naming the failing hex
identifier, one fixed 0.3-unit pacing sleep, and the final DONE report with
its success and not-found counters. -/
inductive Event where
  | lookup : String → Event
  | errorLog : String → Event
  | sleep : Event
  | finalReport : Nat → Nat → Event
deriving DecidableEq

/-- Recognizer for the pacing sleep event. -/
def Event.isSleep : Event → Bool
  | .sleep => true
  | _ => false

/-- Recognizer for a lookup-client call event. -/
def Event.isLookup : Event → Bool
  | .lookup _ => true
  | _ => false

/-- Recognizer for the final report event. -/
def Event.isReport : Event → Bool
  | .finalReport _ _ => true
  | _ => false

/-- State threaded through the enriching loop of main: the store plus the
two counters and the emitted event trace. -/
structure RunState where
  store : Store
  success_count : Nat
  not_found_count : Nat
  events : List Event

/-- The dict literal passed to save_enrichment on the not-found branch of
main. -/
def notFoundData : Json :=
  .obj [("source", .str "not_found")]

/-- One iteration of the enriching loop of main (without the trailing pacing
sleep): call the lookup client; if it returned a dict with a truthy
registration, save it and count a success; otherwise save the not-found
placeholder and count a not-found.  The network outcome for each hex
identifier is supplied by the oracle net. -/
def processOne (net : String → Response) (now : Int) (st : RunState) (hex_code : String) : RunState :=
  match enrich_from_adsbdb (net hex_code) with
  | .found d =>
    if (d.get "registration").truthy then
      { store := save_enrichment st.store hex_code d now,
        success_count := st.success_count + 1,
        not_found_count := st.not_found_count,
        events := st.events ++ [.lookup hex_code] }
    else
      { store := save_enrichment st.store hex_code notFoundData now,
        success_count := st.success_count,
        not_found_count := st.not_found_count + 1,
        events := st.events ++ [.lookup hex_code] }
  | .notFound =>
    { store := save_enrichment st.store hex_code notFoundData now,
      success_count := st.success_count,
      not_found_count := st.not_found_count + 1,
      events := st.events ++ [.lookup hex_code] }
  | .error =>
    { store := save_enrichment st.store hex_code notFoundData now,
      success_count := st.success_count,
      not_found_count := st.not_found_count + 1,
      events := st.events ++ [.lookup hex_code, .errorLog hex_code] }

/-- The enriching loop of main over the selected candidates: after every
iteration except the last, time.sleep(0.3) runs (the index test i < n - 1 of
the source). -/
def runLoop (net : String → Response) (now : Int) (st : RunState) : List String → RunState
  | [] => st
  | [h] => processOne net now st h
  | h :: h' :: rest =>
    let st₁ := processOne net now st h
    runLoop net now { st₁ with events := st₁.events ++ [.sleep] } (h' :: rest)

/-- The loop state main starts from: the store as set up, both counters
zero, nothing emitted yet. -/
def initialRunState (store : Store) : RunState :=
  { store := store, success_count := 0, not_found_count := 0, events := [] }

/-- A completed run of main from selection onward: the whole candidate list
is processed and the DONE report with the final counters is printed. -/
def mainCompleted (net : String → Response) (now : Int) (store : Store)
    (hexes : List String) : RunState :=
  let st := runLoop net now (initialRunState store) hexes
  { st with events := st.events ++ [.finalReport st.success_count st.not_found_count] }

/-- A run of main interrupted at the iteration boundary after k candidates:
main installs no handler for the interrupt, so the loop body never resumes
and none of the statements after the loop (including the DONE report) run;
each save_enrichment already committed in its own transaction.  Modelled
from the absence of any try/except around the loop in main. -/
def mainInterrupted (net : String → Response) (now : Int) (store : Store)
    (hexes : List String) (k : Nat) : RunState :=
  runLoop net now (initialRunState store) (hexes.take k)

/-- The candidate-selection dispatch of main: the same-day selector when the
today-only flag is given, the recency selector otherwise; these are the only
two policies the source implements. -/
def selectCandidates (todayOnly : Bool) (aircraft : List Obs) (store : Store)
    (now : Int) (todayStart : Int) (days : Nat) (limit : Nat) : List String :=
  if todayOnly then get_todays_unenriched_hex_codes aircraft store todayStart limit
  else get_recent_unenriched_hex_codes aircraft store now days limit

/-- Lexicographic byte order on ASCII strings, the BINARY collation SQL
would use for ORDER BY hex ASC. -/
def strLtb : List Char → List Char → Bool
  | [], [] => false
  | [], _ :: _ => true
  | _ :: _, [] => false
  | a :: as, b :: bs =>
    if a.toNat < b.toNat then true
    else if b.toNat < a.toNat then false
    else strLtb as bs

/-- Strict precedence giving ascending hex order. -/
def ascPrec (x y : String) : Bool :=
  strLtb x.data y.data

/-- Modelled from the spec: the full-backlog selection policy of section 4.1
of the specification, which no function of the source implements — all hex
identifiers present in observations with no enrichment record or a record
with null registration, ordered ascending by hex identifier, with no
limit. -/
def fullBacklogSpec (aircraft : List Obs) (store : Store) : List String :=
  sortByPrec ascPrec
    (((aircraft.filterMap (fun a => a.hex)).dedup).filter (fun h => needsEnrichment store h))

/-- The recency selector as claim C4 words it: identical to the source
selector except that the tie on last_seen is broken by the TOTAL number of
observations of the hex identifier, not by the number of observations
inside the window. -/
def recentSelectorClaim (aircraft : List Obs) (store : Store)
    (now : Int) (days : Nat) (limit : Nat) : List String :=
  let cutoff := now - 86400 * (days : Int)
  let rows := recentRows aircraft store cutoff
  ((sortByPrec recencyPrec ((groupedHexes rows).map (fun h =>
    { hex := h,
      last_seen := maxTimestamp (rowsFor rows h),
      ping_count := (aircraft.filter (fun a => a.hex == some h)).length }))).map
        (fun r => r.hex)).take limit


/-- The data dict actually persisted for one candidate by the loop body of
main: the lookup result itself when it is a dict with a truthy registration,
the not-found placeholder dict otherwise. -/
def chosenData (net : String → Response) (h : String) : Json :=
  match enrich_from_adsbdb (net h) with
  | .found d => if (d.get "registration").truthy then d else notFoundData
  | .notFound => notFoundData
  | .error => notFoundData

/-- A sequence of save_enrichment calls (hex, data, write time), applied in
order; used to state the repeated-upsert invariants. -/
def applyWrites (st : Store) (ws : List (String × Json × Int)) : Store :=
  ws.foldl (fun s w => save_enrichment s w.1 w.2.1 w.2.2) st

/-- Observation scenario of the full-backlog test: hexes A, B and C, C seen
most often and most recently, B enriched with a non-null registration. -/
def airBacklog : List Obs :=
  [⟨some "C", 999500⟩, ⟨some "C", 999400⟩, ⟨some "B", 999300⟩, ⟨some "A", 999000⟩]

/-- Store of the full-backlog test: only B has a record, with a non-null
registration. -/
def recBacklog : Store :=
  [{ hex := "B", registration := .str "N123", type := .null, manufacturer := .null,
     operator := .null, origin_country := .null, last_updated := 0, source := .str "adsbdb" }]

/-! Helper lemmas about the stable insertion sort modelling ORDER BY. -/

theorem insertByPrec_perm {α : Type} (prec : α → α → Bool) (x : α) (l : List α) :
    (insertByPrec prec x l).Perm (x :: l) := by
  induction l with
  | nil => simp [insertByPrec]
  | cons y ys ih =>
    by_cases h : prec x y = true
    · simp [insertByPrec, h]
    · simp only [insertByPrec, h, if_false, Bool.false_eq_true, if_neg]
      exact (ih.cons y).trans (List.Perm.swap x y ys)

theorem sortByPrec_perm {α : Type} (prec : α → α → Bool) (l : List α) :
    (sortByPrec prec l).Perm l := by
  induction l with
  | nil => simp [sortByPrec]
  | cons x xs ih =>
    exact (insertByPrec_perm prec x (sortByPrec prec xs)).trans (ih.cons x)

theorem mem_sortByPrec {α : Type} (prec : α → α → Bool) (l : List α) (a : α) :
    a ∈ sortByPrec prec l ↔ a ∈ l :=
  (sortByPrec_perm prec l).mem_iff

theorem mem_insertByPrec {α : Type} (prec : α → α → Bool) (x : α) (l : List α) (a : α) :
    a ∈ insertByPrec prec x l ↔ a = x ∨ a ∈ l := by
  rw [(insertByPrec_perm prec x l).mem_iff]; simp

theorem pairwise_insertByPrec {α : Type} (prec : α → α → Bool)
    (hasym : ∀ a b, prec a b = true → prec b a = false)
    (htrans : ∀ a b c, prec a b = true → prec c b = false → prec c a = false)
    (x : α) (l : List α) (hl : l.Pairwise (fun a b => prec b a = false)) :
    (insertByPrec prec x l).Pairwise (fun a b => prec b a = false) := by
  induction l with
  | nil => simp [insertByPrec]
  | cons y ys ih =>
    rcases List.pairwise_cons.mp hl with ⟨hy, hys⟩
    by_cases h : prec x y = true
    · simp only [insertByPrec, h, if_true]
      refine List.pairwise_cons.mpr ⟨?_, List.pairwise_cons.mpr ⟨hy, hys⟩⟩
      intro z hz
      rcases List.mem_cons.mp hz with rfl | hz'
      · exact hasym x z h
      · exact htrans x y z h (hy z hz')
    · simp only [insertByPrec, h, if_false, Bool.false_eq_true, if_neg]
      refine List.pairwise_cons.mpr ⟨?_, ih hys⟩
      intro z hz
      rcases (mem_insertByPrec prec x ys z).mp hz with rfl | hz'
      · simpa using h
      · exact hy z hz'

theorem pairwise_sortByPrec {α : Type} (prec : α → α → Bool)
    (hasym : ∀ a b, prec a b = true → prec b a = false)
    (htrans : ∀ a b c, prec a b = true → prec c b = false → prec c a = false)
    (l : List α) :
    (sortByPrec prec l).Pairwise (fun a b => prec b a = false) := by
  induction l with
  | nil => simp [sortByPrec]
  | cons x xs ih => exact pairwise_insertByPrec prec hasym htrans x _ ih

theorem recencyPrec_asym (a b : Ranked) (h : recencyPrec a b = true) :
    recencyPrec b a = false := by
  rw [Bool.eq_false_iff]
  intro hba
  simp only [recencyPrec, Bool.or_eq_true, Bool.and_eq_true, decide_eq_true_eq] at h hba
  omega

theorem recencyPrec_trans (a b c : Ranked) (h₁ : recencyPrec a b = true)
    (h₂ : recencyPrec c b = false) : recencyPrec c a = false := by
  rw [Bool.eq_false_iff] at h₂ ⊢
  intro hca
  apply h₂
  simp only [recencyPrec, Bool.or_eq_true, Bool.and_eq_true, decide_eq_true_eq] at h₁ hca ⊢
  omega

theorem countPrec_asym (a b : Ranked) (h : countPrec a b = true) :
    countPrec b a = false := by
  rw [Bool.eq_false_iff]
  intro hba
  simp only [countPrec, decide_eq_true_eq] at h hba
  omega

theorem countPrec_trans (a b c : Ranked) (h₁ : countPrec a b = true)
    (h₂ : countPrec c b = false) : countPrec c a = false := by
  rw [Bool.eq_false_iff] at h₂ ⊢
  intro hca
  apply h₂
  simp only [countPrec, decide_eq_true_eq] at h₁ hca ⊢
  omega

/-! Helper lemmas about the selectors, the store and the run loop. -/

theorem mem_groupedHexes (rows : List Obs) (h : String) :
    h ∈ groupedHexes rows ↔ ∃ a ∈ rows, a.hex = some h := by
  simp [groupedHexes, List.mem_dedup, List.mem_filterMap]

theorem mem_recentRows (aircraft : List Obs) (store : Store) (cutoff : Int) (a : Obs) :
    a ∈ recentRows aircraft store cutoff ↔
      a ∈ aircraft ∧ ∃ h, a.hex = some h ∧ cutoff < a.timestamp ∧ needsEnrichment store h = true := by
  rw [recentRows, List.mem_filter]
  constructor
  · rintro ⟨ha, hp⟩
    refine ⟨ha, ?_⟩
    cases hx : a.hex with
    | none => rw [hx] at hp; simp at hp
    | some h =>
      rw [hx] at hp
      simp only [Bool.and_eq_true, decide_eq_true_eq] at hp
      exact ⟨h, rfl, hp.1, hp.2⟩
  · rintro ⟨ha, h, hx, ht, hn⟩
    refine ⟨ha, ?_⟩
    rw [hx]
    simp only [Bool.and_eq_true, decide_eq_true_eq]
    exact ⟨ht, hn⟩

theorem mem_recentCandidateHexes (aircraft : List Obs) (store : Store) (cutoff : Int) (h : String) :
    h ∈ recentCandidateHexes aircraft store cutoff ↔
      needsEnrichment store h = true ∧
        ∃ a ∈ aircraft, a.hex = some h ∧ cutoff < a.timestamp := by
  rw [recentCandidateHexes, recentRankedList, List.mem_map]
  constructor
  · rintro ⟨r, hr, rfl⟩
    rw [mem_sortByPrec, List.mem_map] at hr
    rcases hr with ⟨g, hg, rfl⟩
    rw [mem_groupedHexes] at hg
    rcases hg with ⟨a, ha, hx⟩
    rw [mem_recentRows] at ha
    rcases ha with ⟨ha, h', hx', ht, hn⟩
    have hg' : h' = g := by
      rw [hx'] at hx
      exact Option.some_inj.mp hx
    subst hg'
    exact ⟨hn, a, ha, hx', ht⟩
  · rintro ⟨hn, a, ha, hx, ht⟩
    refine ⟨rankedOf (recentRows aircraft store cutoff) h, ?_, rfl⟩
    rw [mem_sortByPrec, List.mem_map]
    refine ⟨h, ?_, rfl⟩
    rw [mem_groupedHexes]
    exact ⟨a, (mem_recentRows aircraft store cutoff a).mpr ⟨ha, h, hx, ht, hn⟩, hx⟩

theorem mem_todayRows (aircraft : List Obs) (store : Store) (todayStart : Int) (a : Obs) :
    a ∈ todayRows aircraft store todayStart ↔
      a ∈ aircraft ∧ ∃ h, a.hex = some h ∧ todayStart ≤ a.timestamp ∧ needsEnrichment store h = true := by
  rw [todayRows, List.mem_filter]
  constructor
  · rintro ⟨ha, hp⟩
    refine ⟨ha, ?_⟩
    cases hx : a.hex with
    | none => rw [hx] at hp; simp at hp
    | some h =>
      rw [hx] at hp
      simp only [Bool.and_eq_true, decide_eq_true_eq] at hp
      exact ⟨h, rfl, hp.1, hp.2⟩
  · rintro ⟨ha, h, hx, ht, hn⟩
    refine ⟨ha, ?_⟩
    rw [hx]
    simp only [Bool.and_eq_true, decide_eq_true_eq]
    exact ⟨ht, hn⟩

theorem mem_todaysCandidateHexes (aircraft : List Obs) (store : Store) (todayStart : Int) (h : String) :
    h ∈ todaysCandidateHexes aircraft store todayStart ↔
      needsEnrichment store h = true ∧
        ∃ a ∈ aircraft, a.hex = some h ∧ todayStart ≤ a.timestamp := by
  rw [todaysCandidateHexes, todaysRankedList, List.mem_map]
  constructor
  · rintro ⟨r, hr, rfl⟩
    rw [mem_sortByPrec, List.mem_map] at hr
    rcases hr with ⟨g, hg, rfl⟩
    rw [mem_groupedHexes] at hg
    rcases hg with ⟨a, ha, hx⟩
    rw [mem_todayRows] at ha
    rcases ha with ⟨ha, h', hx', ht, hn⟩
    have hg' : h' = g := by
      rw [hx'] at hx
      exact Option.some_inj.mp hx
    subst hg'
    exact ⟨hn, a, ha, hx', ht⟩
  · rintro ⟨hn, a, ha, hx, ht⟩
    refine ⟨rankedOf (todayRows aircraft store todayStart) h, ?_, rfl⟩
    rw [mem_sortByPrec, List.mem_map]
    refine ⟨h, ?_, rfl⟩
    rw [mem_groupedHexes]
    exact ⟨a, (mem_todayRows aircraft store todayStart a).mpr ⟨ha, h, hx, ht, hn⟩, hx⟩

theorem processOne_store (net : String → Response) (now : Int) (st : RunState) (h : String) :
    (processOne net now st h).store = save_enrichment st.store h (chosenData net h) now := by
  unfold processOne chosenData
  cases enrich_from_adsbdb (net h) with
  | found d =>
    by_cases hreg : (d.get "registration").truthy = true
    · simp [hreg]
    · simp [hreg]
  | notFound => rfl
  | error => rfl

theorem processOne_filter_isLookup (net : String → Response) (now : Int) (st : RunState) (h : String) :
    (processOne net now st h).events.filter Event.isLookup =
      st.events.filter Event.isLookup ++ [Event.lookup h] := by
  unfold processOne
  cases enrich_from_adsbdb (net h) with
  | found d =>
    by_cases hreg : (d.get "registration").truthy = true
    · simp [hreg, List.filter_append, Event.isLookup]
    · simp [hreg, List.filter_append, Event.isLookup]
  | notFound => simp [List.filter_append, Event.isLookup]
  | error => simp [List.filter_append, Event.isLookup]

theorem processOne_countP_sleep (net : String → Response) (now : Int) (st : RunState) (h : String) :
    (processOne net now st h).events.countP Event.isSleep = st.events.countP Event.isSleep := by
  unfold processOne
  cases enrich_from_adsbdb (net h) with
  | found d =>
    by_cases hreg : (d.get "registration").truthy = true
    · simp [hreg, List.countP_append, Event.isSleep]
    · simp [hreg, List.countP_append, Event.isSleep]
  | notFound => simp [List.countP_append, Event.isSleep]
  | error => simp [List.countP_append, Event.isSleep]

theorem processOne_countP_report (net : String → Response) (now : Int) (st : RunState) (h : String) :
    (processOne net now st h).events.countP Event.isReport = st.events.countP Event.isReport := by
  unfold processOne
  cases enrich_from_adsbdb (net h) with
  | found d =>
    by_cases hreg : (d.get "registration").truthy = true
    · simp [hreg, List.countP_append, Event.isReport]
    · simp [hreg, List.countP_append, Event.isReport]
  | notFound => simp [List.countP_append, Event.isReport]
  | error => simp [List.countP_append, Event.isReport]

theorem processOne_getLast? (net : String → Response) (now : Int) (st : RunState) (h : String) :
    (processOne net now st h).events.getLast? = some (Event.lookup h) ∨
      (processOne net now st h).events.getLast? = some (Event.errorLog h) := by
  unfold processOne
  cases enrich_from_adsbdb (net h) with
  | found d =>
    by_cases hreg : (d.get "registration").truthy = true
    · left; simp [hreg, List.getLast?_append]
    · left; simp [hreg, List.getLast?_append]
  | notFound => left; simp [List.getLast?_append]
  | error => right; simp [List.getLast?_append]

theorem runLoop_filter_isLookup (net : String → Response) (now : Int) (hexes : List String) :
    ∀ st : RunState, (runLoop net now st hexes).events.filter Event.isLookup =
      st.events.filter Event.isLookup ++ hexes.map Event.lookup := by
  induction hexes with
  | nil => intro st; simp [runLoop]
  | cons h t ih =>
    intro st
    cases t with
    | nil => simpa [runLoop] using processOne_filter_isLookup net now st h
    | cons h' rest =>
      rw [runLoop, ih]
      simp [List.filter_append, Event.isLookup, processOne_filter_isLookup net now st h]

theorem runLoop_countP_sleep (net : String → Response) (now : Int) (hexes : List String) :
    ∀ st : RunState, (runLoop net now st hexes).events.countP Event.isSleep =
      st.events.countP Event.isSleep + (hexes.length - 1) := by
  induction hexes with
  | nil => intro st; simp [runLoop]
  | cons h t ih =>
    intro st
    cases t with
    | nil => simpa [runLoop] using processOne_countP_sleep net now st h
    | cons h' rest =>
      rw [runLoop, ih]
      simp only [List.countP_append, processOne_countP_sleep net now st h, List.length_cons]
      simp [Event.isSleep, List.countP_cons]
      omega

theorem runLoop_countP_report (net : String → Response) (now : Int) (hexes : List String) :
    ∀ st : RunState, (runLoop net now st hexes).events.countP Event.isReport =
      st.events.countP Event.isReport := by
  induction hexes with
  | nil => intro st; simp [runLoop]
  | cons h t ih =>
    intro st
    cases t with
    | nil => simpa [runLoop] using processOne_countP_report net now st h
    | cons h' rest =>
      rw [runLoop, ih]
      simp [List.countP_append, Event.isReport, processOne_countP_report net now st h]

theorem runLoop_getLast?_not_sleep (net : String → Response) (now : Int) (hexes : List String)
    (hne : hexes ≠ []) :
    ∀ st : RunState, ∃ e, (runLoop net now st hexes).events.getLast? = some e ∧ e.isSleep = false := by
  induction hexes with
  | nil => exact absurd rfl hne
  | cons h t ih =>
    intro st
    cases t with
    | nil =>
      rcases processOne_getLast? net now st h with hc | hc
      · exact ⟨Event.lookup h, by simpa [runLoop] using hc, rfl⟩
      · exact ⟨Event.errorLog h, by simpa [runLoop] using hc, rfl⟩
    | cons h' rest =>
      rw [runLoop]
      exact ih (by simp) _

theorem find?_filter_of_imp (p q : EnrichmentRecord → Bool)
    (himp : ∀ r, p r = true → q r = true) :
    ∀ s : Store, (s.filter q).find? p = s.find? p := by
  intro s
  induction s with
  | nil => rfl
  | cons r s' ih =>
    by_cases hp : p r = true
    · rw [List.filter_cons, if_pos (himp r hp)]
      rw [List.find?_cons_of_pos _ hp, List.find?_cons_of_pos _ hp]
    · rw [List.find?_cons_of_neg _ hp, List.filter_cons]
      by_cases hq : q r = true
      · rw [if_pos hq, List.find?_cons_of_neg _ hp, ih]
      · rw [if_neg hq, ih]

theorem find?_save_self (s : Store) (h : String) (d : Json) (t : Int) :
    (save_enrichment s h d t).find? (fun r => r.hex == pyUpper h) = some (savedRecord h d t) := by
  rw [save_enrichment, List.find?_cons_of_pos]
  simp [savedRecord]

theorem find?_save_ne (s : Store) (h : String) (d : Json) (t : Int) (k : String)
    (hk : k ≠ pyUpper h) :
    (save_enrichment s h d t).find? (fun r => r.hex == k) = s.find? (fun r => r.hex == k) := by
  rw [save_enrichment, List.find?_cons_of_neg]
  · refine find?_filter_of_imp (fun r => r.hex == k) (fun r => r.hex != pyUpper h) ?_ s
    intro r hr
    have hrk : r.hex = k := by simpa using hr
    simp only []
    rw [hrk]
    simpa using hk
  · have : (savedRecord h d t).hex = pyUpper h := rfl
    simp only [this]
    simp
    exact fun hc => hk hc.symm

theorem mem_save_enrichment (s : Store) (h : String) (d : Json) (t : Int) (r : EnrichmentRecord)
    (hr : r ∈ save_enrichment s h d t) : r = savedRecord h d t ∨ r ∈ s := by
  rcases List.mem_cons.mp hr with hc | hc
  · exact Or.inl hc
  · exact Or.inr (List.mem_of_mem_filter hc)

theorem mem_runLoop_store (net : String → Response) (now : Int) (hexes : List String) :
    ∀ (st : RunState) (r : EnrichmentRecord), r ∈ (runLoop net now st hexes).store →
      r ∈ st.store ∨ ∃ h ∈ hexes, r = savedRecord h (chosenData net h) now := by
  induction hexes with
  | nil => intro st r hr; exact Or.inl hr
  | cons h t ih =>
    intro st r hr
    cases t with
    | nil =>
      rw [runLoop, processOne_store] at hr
      rcases mem_save_enrichment _ _ _ _ _ hr with hc | hc
      · exact Or.inr ⟨h, by simp, hc⟩
      · exact Or.inl hc
    | cons h' rest =>
      rw [runLoop] at hr
      rcases ih _ r hr with hc | hc
      · rw [processOne_store] at hc
        rcases mem_save_enrichment _ _ _ _ _ hc with hc' | hc'
        · exact Or.inr ⟨h, by simp, hc'⟩
        · exact Or.inl hc'
      · rcases hc with ⟨g, hg, hr'⟩
        exact Or.inr ⟨g, by simp [hg], hr'⟩

theorem runLoop_find?_ne (net : String → Response) (now : Int) (hexes : List String) (k : String)
    (hk : k ∉ hexes.map pyUpper) :
    ∀ st : RunState, (runLoop net now st hexes).store.find? (fun r => r.hex == k) =
      st.store.find? (fun r => r.hex == k) := by
  induction hexes with
  | nil => intro st; rfl
  | cons h t ih =>
    have hk₁ : k ≠ pyUpper h := by
      intro hc; exact hk (by simp [hc])
    have hk₂ : k ∉ t.map pyUpper := by
      intro hc; exact hk (by simp [List.mem_map] at hc ⊢; tauto)
    intro st
    cases t with
    | nil =>
      rw [runLoop, processOne_store]
      exact find?_save_ne _ _ _ _ _ hk₁
    | cons h' rest =>
      rw [runLoop, ih hk₂]
      simp only []
      rw [processOne_store]
      exact find?_save_ne _ _ _ _ _ hk₁

theorem runLoop_find?_processed (net : String → Response) (now : Int) (hexes : List String)
    (hnd : (hexes.map pyUpper).Nodup) (h : String) (hmem : h ∈ hexes) :
    ∀ st : RunState, (runLoop net now st hexes).store.find? (fun r => r.hex == pyUpper h) =
      some (savedRecord h (chosenData net h) now) := by
  induction hexes with
  | nil => exact absurd hmem (by simp)
  | cons g t ih =>
    intro st
    rcases List.mem_cons.mp hmem with rfl | hmem'
    · have hcons := (by simpa using hnd :
        (∀ x ∈ t, ¬ pyUpper x = pyUpper h) ∧ (t.map pyUpper).Nodup)
      have hnot : pyUpper h ∉ t.map pyUpper := by
        intro hc
        rcases List.mem_map.mp hc with ⟨x, hx, hxx⟩
        exact hcons.1 x hx hxx
      cases t with
      | nil =>
        rw [runLoop, processOne_store]
        exact find?_save_self _ _ _ _
      | cons h' rest =>
        rw [runLoop, runLoop_find?_ne net now _ _ hnot]
        simp only []
        rw [processOne_store]
        exact find?_save_self _ _ _ _
    · have hcons := (by simpa using hnd :
        (∀ x ∈ t, ¬ pyUpper x = pyUpper g) ∧ (t.map pyUpper).Nodup)
      have hnd' : (t.map pyUpper).Nodup := hcons.2
      cases t with
      | nil => exact absurd hmem' (by simp)
      | cons h' rest =>
        rw [runLoop]
        exact ih hnd' hmem' _

theorem save_length_fresh (s : Store) (h : String) (d : Json) (t : Int)
    (hfresh : ∀ r ∈ s, r.hex ≠ pyUpper h) :
    (save_enrichment s h d t).length = s.length + 1 := by
  rw [save_enrichment]
  have : s.filter (fun r => r.hex != pyUpper h) = s := by
    rw [List.filter_eq_self]
    intro r hr
    simpa using hfresh r hr
  rw [this, List.length_cons]

theorem runLoop_store_length (net : String → Response) (now : Int) (hexes : List String) :
    ∀ st : RunState, (hexes.map pyUpper).Nodup →
      (∀ r ∈ st.store, r.hex ∉ hexes.map pyUpper) →
      (runLoop net now st hexes).store.length = st.store.length + hexes.length := by
  induction hexes with
  | nil => intro st _ _; simp [runLoop]
  | cons g t ih =>
    intro st hnd hfresh
    have hcons := (by simpa using hnd :
      (∀ x ∈ t, ¬ pyUpper x = pyUpper g) ∧ (t.map pyUpper).Nodup)
    have hfreshg : ∀ r ∈ st.store, r.hex ≠ pyUpper g := by
      intro r hr
      have := hfresh r hr
      intro hc
      exact this (by simp [hc])
    have hlen₁ : (processOne net now st g).store.length = st.store.length + 1 := by
      rw [processOne_store]
      exact save_length_fresh _ _ _ _ hfreshg
    have hfresh₁ : ∀ r ∈ (processOne net now st g).store, r.hex ∉ t.map pyUpper := by
      intro r hr
      rw [processOne_store] at hr
      rcases mem_save_enrichment _ _ _ _ _ hr with hc | hc
      · rw [hc]
        intro hmem
        rcases List.mem_map.mp hmem with ⟨x, hx, hxx⟩
        exact hcons.1 x hx hxx
      · intro hmem
        exact hfresh r hc (by simp [List.mem_map] at hmem ⊢; tauto)
    cases t with
    | nil => simpa [runLoop] using hlen₁
    | cons h' rest =>
      rw [runLoop]
      have := ih { processOne net now st g with
        events := (processOne net now st g).events ++ [Event.sleep] } hcons.2 hfresh₁
      simp only [] at this ⊢
      rw [this, hlen₁]
      simp
      omega

theorem keyUnique_save (s : Store) (h : String) (d : Json) (t : Int) (hs : keyUnique s) :
    keyUnique (save_enrichment s h d t) := by
  rw [keyUnique, save_enrichment, List.pairwise_cons]
  constructor
  · intro r hr
    have hq := List.of_mem_filter hr
    intro hc
    rw [savedRecord] at hc
    simp only [] at hc
    simp at hq
    exact hq hc.symm
  · exact List.Pairwise.filter _ hs

theorem keyUnique_countP_le_one (s : Store) (hs : keyUnique s) (k : String) :
    s.countP (fun r => r.hex == k) ≤ 1 := by
  induction s with
  | nil => simp
  | cons r s' ih =>
    rcases List.pairwise_cons.mp hs with ⟨hr, hs'⟩
    by_cases hk : (r.hex == k) = true
    · have hk' : r.hex = k := by simpa using hk
      have hzero : s'.countP (fun x => x.hex == k) = 0 := by
        rw [List.countP_eq_zero]
        intro x hx
        have : r.hex ≠ x.hex := hr x hx
        simp
        rw [← hk']
        exact fun hc => this hc.symm
      rw [List.countP_cons, hzero]
      simp [hk]
    · rw [List.countP_cons]
      have hk0 : (r.hex == k) = false := by simpa using hk
      rw [hk0]
      simpa using ih hs'

theorem keyUnique_applyWrites (ws : List (String × Json × Int)) :
    ∀ st : Store, keyUnique st → keyUnique (applyWrites st ws) := by
  induction ws with
  | nil => intro st hst; exact hst
  | cons w ws' ih =>
    intro st hst
    exact ih _ (keyUnique_save st w.1 w.2.1 w.2.2 hst)

theorem applyWrites_concat (st : Store) (ws : List (String × Json × Int))
    (w : String × Json × Int) :
    applyWrites st (ws ++ [w]) = save_enrichment (applyWrites st ws) w.1 w.2.1 w.2.2 := by
  rw [applyWrites, List.foldl_append]
  rfl

theorem truthy_obj_of_ne_nil (fs : List (String × Json)) (h : fs ≠ []) :
    (Json.obj fs).truthy = true := by
  cases fs with
  | nil => exact absurd rfl h
  | cons p ps => rfl

theorem handle200_found (fs rfields acfields : List (String × Json))
    (h1 : (Json.obj fs).get "response" = .obj rfields)
    (h2 : (Json.obj rfields).get "aircraft" = .obj acfields)
    (h3 : acfields ≠ []) :
    handleBody200 (.obj fs) = .found (mkEnrichDict (.obj acfields)) := by
  rw [handleBody200.eq_def]
  simp only [h1, h2, truthy_obj_of_ne_nil acfields h3, if_true]

theorem handle200_unknown (fs : List (String × Json))
    (h1 : (Json.obj fs).get "response" = .str "unknown aircraft") :
    handleBody200 (.obj fs) = .notFound := by
  rw [handleBody200.eq_def]
  simp only [h1]

theorem enrich_found_dict (resp : Response) (d : Json)
    (h : enrich_from_adsbdb resp = .found d) :
    ∃ ac : List (String × Json), d = mkEnrichDict (.obj ac) := by
  cases resp with
  | transportError => simp [enrich_from_adsbdb] at h
  | badPayload => simp [enrich_from_adsbdb] at h
  | ok s b =>
    rw [enrich_from_adsbdb] at h
    by_cases hs : (s == 200) = true
    · rw [if_pos hs, handleBody200.eq_def] at h
      split at h
      · split at h
        · split at h
          · split at h
            · rename_i acfields hac
              refine ⟨acfields, ?_⟩
              injection h with h'
              rw [← h', hac]
            · simp at h
          · simp at h
        · simp at h
      · simp at h
    · rw [if_neg hs] at h
      simp at h

/-- Claim C2: for every hex identifier for which the lookup reports
not-found (or fails), the record written to the store has registration,
type, manufacturer, operator and origin_country all null, and source equal
to the not-found sentinel. -/
theorem c2_not_found_placeholder (net : String → Response) (now : Int) (st : RunState)
    (h : String)
    (hnf : enrich_from_adsbdb (net h) = .notFound ∨ enrich_from_adsbdb (net h) = .error) :
    (processOne net now st h).store.find? (fun r => r.hex == pyUpper h) =
      some { hex := pyUpper h, registration := .null, type := .null, manufacturer := .null,
             operator := .null, origin_country := .null, last_updated := now,
             source := .str "not_found" } := by
  rw [processOne_store]
  have hc : chosenData net h = notFoundData := by
    rw [chosenData]
    rcases hnf with hn | hn <;> rw [hn]
  rw [hc, find?_save_self]
  rfl

/-- Witness for C2: an HTTP 404 for hex abc123 leaves the all-null
placeholder row keyed ABC123 with source not_found. -/
theorem c2_not_found_placeholder_witness :
    (enrich_from_adsbdb ((fun _ => Response.ok 404 .null) "abc123") = .notFound ∨
      enrich_from_adsbdb ((fun _ => Response.ok 404 .null) "abc123") = .error) ∧
    (processOne (fun _ => Response.ok 404 .null) 7 (initialRunState []) "abc123").store.find?
        (fun r => r.hex == pyUpper "abc123") =
      some { hex := "ABC123", registration := .null, type := .null, manufacturer := .null,
             operator := .null, origin_country := .null, last_updated := 7,
             source := .str "not_found" } :=
  ⟨Or.inl rfl,
    c2_not_found_placeholder (fun _ => Response.ok 404 .null) 7 (initialRunState []) "abc123"
      (Or.inl rfl)⟩

/-- Claim C3: under any sequence of enrichment writes the store keeps at
most one row per hex identifier (keyed by the uppercased hex, so inputs
differing only in case hit the same row), and after a write that row is
exactly the row built from the most recent write, with no field of any
earlier record surviving. -/
theorem c3_single_row_full_replacement (st : Store) (ws : List (String × Json × Int))
    (h h₂ : String) (d : Json) (t : Int) (k : String)
    (hst : keyUnique st) (hcase : pyUpper h₂ = pyUpper h) :
    (applyWrites st ws).countP (fun r => r.hex == k) ≤ 1 ∧
    keyUnique (applyWrites st ws) ∧
    (applyWrites st (ws ++ [(h, d, t)])).find? (fun r => r.hex == pyUpper h) =
      some (savedRecord h d t) ∧
    (applyWrites st (ws ++ [(h₂, d, t)])).find? (fun r => r.hex == pyUpper h) =
      some (savedRecord h₂ d t) := by
  refine ⟨keyUnique_countP_le_one _ (keyUnique_applyWrites ws st hst) k,
    keyUnique_applyWrites ws st hst, ?_, ?_⟩
  · rw [applyWrites_concat]
    exact find?_save_self _ _ _ _
  · rw [applyWrites_concat, ← hcase]
    exact find?_save_self _ _ _ _

/-- Witness for C3: writing ab then AB then aB leaves one row keyed AB
holding exactly the last write's fields. -/
theorem c3_single_row_full_replacement_witness :
    (keyUnique [] ∧ pyUpper "aB" = pyUpper "ab") ∧
    ((applyWrites [] [("ab", Json.obj [("registration", .str "R1"), ("source", .str "adsbdb")], 1),
        ("AB", notFoundData, 2)]).countP (fun r => r.hex == "AB") ≤ 1 ∧
     keyUnique (applyWrites [] [("ab", Json.obj [("registration", .str "R1"), ("source", .str "adsbdb")], 1),
        ("AB", notFoundData, 2)]) ∧
     (applyWrites [] ([("ab", Json.obj [("registration", .str "R1"), ("source", .str "adsbdb")], 1),
        ("AB", notFoundData, 2)] ++ [("ab", notFoundData, 3)])).find?
          (fun r => r.hex == pyUpper "ab") = some (savedRecord "ab" notFoundData 3) ∧
     (applyWrites [] ([("ab", Json.obj [("registration", .str "R1"), ("source", .str "adsbdb")], 1),
        ("AB", notFoundData, 2)] ++ [("aB", notFoundData, 3)])).find?
          (fun r => r.hex == pyUpper "ab") = some (savedRecord "aB" notFoundData 3)) :=
  ⟨⟨List.Pairwise.nil, rfl⟩,
    c3_single_row_full_replacement []
      [("ab", Json.obj [("registration", .str "R1"), ("source", .str "adsbdb")], 1),
       ("AB", notFoundData, 2)] "ab" "aB"
      notFoundData 3 "AB" List.Pairwise.nil rfl⟩

/-- Claim C6: a transport failure, timeout or malformed payload for a
candidate is caught (the lookup client returns through its except clause
instead of propagating), an error line naming the failing hex identifier is
emitted, the candidate is saved as a not-found placeholder with the
not-found counter bumped, and the loop still performs exactly one lookup
per candidate of the batch in order, so the failure neither triggers a
retry nor aborts the run. -/
theorem c6_transient_failure (net : String → Response) (now : Int) (st st' : RunState)
    (h : String) (hexes : List String)
    (hfail : net h = .transportError ∨ net h = .badPayload) :
    enrich_from_adsbdb (net h) = .error ∧
    (processOne net now st h).store = save_enrichment st.store h notFoundData now ∧
    (processOne net now st h).not_found_count = st.not_found_count + 1 ∧
    (processOne net now st h).events = st.events ++ [Event.lookup h, Event.errorLog h] ∧
    (runLoop net now st' hexes).events.filter Event.isLookup =
      st'.events.filter Event.isLookup ++ hexes.map Event.lookup := by
  have herr : enrich_from_adsbdb (net h) = .error := by
    rcases hfail with hf | hf <;> rw [hf] <;> rfl
  refine ⟨herr, ?_, ?_, ?_, runLoop_filter_isLookup net now hexes st'⟩
  · rw [processOne_store]
    have : chosenData net h = notFoundData := by rw [chosenData, herr]
    rw [this]
  · rw [processOne, herr]
  · rw [processOne, herr]

/-- Witness for C6: a timed-out lookup for hex deadbe in a batch of three is
logged, stored as a placeholder, counted as not found, and all three
candidates are still looked up exactly once. -/
theorem c6_transient_failure_witness :
    ((fun _ => Response.transportError) "deadbe" = Response.transportError ∨
     (fun _ => Response.transportError) "deadbe" = Response.badPayload) ∧
    (enrich_from_adsbdb ((fun _ => Response.transportError) "deadbe") = .error ∧
     (processOne (fun _ => Response.transportError) 3 (initialRunState []) "deadbe").store =
       save_enrichment (initialRunState []).store "deadbe" notFoundData 3 ∧
     (processOne (fun _ => Response.transportError) 3 (initialRunState []) "deadbe").not_found_count =
       (initialRunState []).not_found_count + 1 ∧
     (processOne (fun _ => Response.transportError) 3 (initialRunState []) "deadbe").events =
       (initialRunState []).events ++ [Event.lookup "deadbe", Event.errorLog "deadbe"] ∧
     (runLoop (fun _ => Response.transportError) 3 (initialRunState [])
        ["deadbe", "aa1111", "bb2222"]).events.filter Event.isLookup =
       (initialRunState []).events.filter Event.isLookup ++
         ["deadbe", "aa1111", "bb2222"].map Event.lookup) :=
  ⟨Or.inl rfl,
    c6_transient_failure (fun _ => Response.transportError) 3 (initialRunState [])
      (initialRunState []) "deadbe" ["deadbe", "aa1111", "bb2222"] (Or.inl rfl)⟩

/-- Claim C7: over a batch of n candidates with n at least 1, the pacing
sleep of 0.3 units runs exactly n - 1 times — after every lookup except the
last — and in particular the event trace never ends with a sleep. -/
theorem c7_pacing (net : String → Response) (now : Int) (st : RunState) (hexes : List String)
    (hne : hexes ≠ []) (hev : st.events = []) :
    (runLoop net now st hexes).events.countP Event.isSleep = hexes.length - 1 ∧
    (runLoop net now st hexes).events.getLast? ≠ some Event.sleep := by
  constructor
  · rw [runLoop_countP_sleep net now hexes st, hev]
    simp
  · rcases runLoop_getLast?_not_sleep net now hexes hne st with ⟨e, he, hs⟩
    rw [he]
    intro hc
    injection hc with hc'
    rw [hc'] at hs
    exact absurd hs (by simp [Event.isSleep])

/-- Witness for C7: a batch of three candidates sleeps exactly twice and the
trace ends with the last candidate's lookup, not a sleep. -/
theorem c7_pacing_witness :
    ((["a1", "b2", "c3"] : List String) ≠ [] ∧ (initialRunState []).events = []) ∧
    ((runLoop (fun _ => Response.ok 404 .null) 0 (initialRunState [])
        ["a1", "b2", "c3"]).events.countP Event.isSleep = (["a1", "b2", "c3"] : List String).length - 1 ∧
     (runLoop (fun _ => Response.ok 404 .null) 0 (initialRunState [])
        ["a1", "b2", "c3"]).events.getLast? ≠ some Event.sleep) :=
  ⟨⟨by simp, rfl⟩,
    c7_pacing (fun _ => Response.ok 404 .null) 0 (initialRunState []) ["a1", "b2", "c3"]
      (by simp) rfl⟩

theorem truthy_not_null (j : Json) (h : j.truthy = true) : j ≠ .null := by
  intro hc
  rw [hc] at h
  exact absurd h (by simp [Json.truthy])

/-- Claim C10: every record the loop writes carries source adsbdb (and then
a truthy, hence non-null, registration) or source not_found (and then a
null registration); any other record in the final store was already there
before the run, and in particular the fallback source value unknown of the
save path is never produced by the pipeline's two call sites. -/
theorem c10_source_invariant (net : String → Response) (now : Int) (store₀ : Store)
    (hexes : List String) (r : EnrichmentRecord)
    (hr : r ∈ (runLoop net now (initialRunState store₀) hexes).store) :
    r ∈ store₀ ∨
      (((r.source = .str "adsbdb" ∧ r.registration.truthy = true ∧ r.registration ≠ .null) ∨
        (r.source = .str "not_found" ∧ r.registration = .null)) ∧
       r.source ≠ .str "unknown") := by
  rcases mem_runLoop_store net now hexes (initialRunState store₀) r hr with hin | ⟨h, _, rfl⟩
  · exact Or.inl hin
  · right
    cases henr : enrich_from_adsbdb (net h) with
    | found d =>
      by_cases hreg : (d.get "registration").truthy = true
      · have hch : chosenData net h = d := by
          rw [chosenData, henr]
          exact if_pos hreg
        rw [hch]
        rcases enrich_found_dict _ _ henr with ⟨ac, rfl⟩
        refine ⟨Or.inl ⟨rfl, hreg, truthy_not_null _ hreg⟩, ?_⟩
        intro hc
        have hss : ("adsbdb" : String) = "unknown" := by
          have hsrc : (savedRecord h (mkEnrichDict (.obj ac)) now).source = .str "adsbdb" := rfl
          rw [hsrc] at hc
          injection hc
        exact absurd hss (by decide)
      · have hch : chosenData net h = notFoundData := by
          rw [chosenData, henr]
          exact if_neg hreg
        rw [hch]
        refine ⟨Or.inr ⟨rfl, rfl⟩, ?_⟩
        intro hc
        have hss : ("not_found" : String) = "unknown" := by injection hc
        exact absurd hss (by decide)
    | notFound =>
      have hch : chosenData net h = notFoundData := by rw [chosenData, henr]
      rw [hch]
      refine ⟨Or.inr ⟨rfl, rfl⟩, ?_⟩
      intro hc
      have hss : ("not_found" : String) = "unknown" := by injection hc
      exact absurd hss (by decide)
    | error =>
      have hch : chosenData net h = notFoundData := by rw [chosenData, henr]
      rw [hch]
      refine ⟨Or.inr ⟨rfl, rfl⟩, ?_⟩
      intro hc
      have hss : ("not_found" : String) = "unknown" := by injection hc
      exact absurd hss (by decide)

/-- Witness for C10: after a run over the single hex aa whose lookup is a
404, the one stored row has source not_found, null registration, and not
the fallback source unknown. -/
theorem c10_source_invariant_witness :
    savedRecord "aa" notFoundData 0 ∈
      (runLoop (fun _ => Response.ok 404 .null) 0 (initialRunState []) ["aa"]).store ∧
    (savedRecord "aa" notFoundData 0 ∈ ([] : Store) ∨
      ((((savedRecord "aa" notFoundData 0).source = .str "adsbdb" ∧
         (savedRecord "aa" notFoundData 0).registration.truthy = true ∧
         (savedRecord "aa" notFoundData 0).registration ≠ .null) ∨
        ((savedRecord "aa" notFoundData 0).source = .str "not_found" ∧
         (savedRecord "aa" notFoundData 0).registration = .null)) ∧
       (savedRecord "aa" notFoundData 0).source ≠ .str "unknown")) :=
  ⟨List.Mem.head _,
    c10_source_invariant (fun _ => Response.ok 404 .null) 0 [] ["aa"]
      (savedRecord "aa" notFoundData 0) (List.Mem.head _)⟩

/-- Claim C1: a hex identifier with an enrichment record whose registration
is null is selected again by both selection queries whenever it has an
observation in the respective window — the predicate never looks at source,
so this covers every not-found placeholder — and a hex identifier whose
record has a non-null registration is excluded by both queries for every
batch limit.  The candidate lists are the pre-LIMIT query results; the
third and fourth conjuncts restate inclusion through the actual selector
functions with a limit covering the whole candidate list. -/
theorem c1_null_registration_requeried (aircraft : List Obs) (store : Store) (h : String)
    (r : EnrichmentRecord) (now todayStart cutoff : Int) (days limit : Nat)
    (hfind : store.find? (fun x => x.hex == h) = some r) :
    (r.registration = .null →
       ((∃ a ∈ aircraft, a.hex = some h ∧ cutoff < a.timestamp) →
          h ∈ recentCandidateHexes aircraft store cutoff) ∧
       ((∃ a ∈ aircraft, a.hex = some h ∧ todayStart ≤ a.timestamp) →
          h ∈ todaysCandidateHexes aircraft store todayStart) ∧
       ((∃ a ∈ aircraft, a.hex = some h ∧ now - 86400 * (days : Int) < a.timestamp) →
          h ∈ get_recent_unenriched_hex_codes aircraft store now days
            ((recentCandidateHexes aircraft store (now - 86400 * (days : Int))).length)) ∧
       ((∃ a ∈ aircraft, a.hex = some h ∧ todayStart ≤ a.timestamp) →
          h ∈ get_todays_unenriched_hex_codes aircraft store todayStart
            ((todaysCandidateHexes aircraft store todayStart).length))) ∧
    (r.registration ≠ .null →
       h ∉ get_recent_unenriched_hex_codes aircraft store now days limit ∧
       h ∉ get_todays_unenriched_hex_codes aircraft store todayStart limit) := by
  have hneeds : needsEnrichment store h = r.registration.isNull := by
    rw [needsEnrichment, hfind]
  constructor
  · intro hnull
    have ht : needsEnrichment store h = true := by
      rw [hneeds, hnull]
      rfl
    refine ⟨fun hobs => ?_, fun hobs => ?_, fun hobs => ?_, fun hobs => ?_⟩
    · exact (mem_recentCandidateHexes aircraft store cutoff h).mpr ⟨ht, hobs⟩
    · exact (mem_todaysCandidateHexes aircraft store todayStart h).mpr ⟨ht, hobs⟩
    · rw [get_recent_unenriched_hex_codes, List.take_length]
      exact (mem_recentCandidateHexes aircraft store _ h).mpr ⟨ht, hobs⟩
    · rw [get_todays_unenriched_hex_codes, List.take_length]
      exact (mem_todaysCandidateHexes aircraft store todayStart h).mpr ⟨ht, hobs⟩
  · intro hnn
    have hf : needsEnrichment store h = false := by
      rw [hneeds]
      cases hreg : r.registration with
      | null => exact absurd rfl (hreg ▸ hnn)
      | str s => rfl
      | num n => rfl
      | bool b => rfl
      | obj fs => rfl
      | arr es => rfl
    constructor
    · intro hc
      have := List.mem_of_mem_take hc
      have := (mem_recentCandidateHexes aircraft store _ h).mp this
      rw [hf] at this
      exact absurd this.1 (by simp)
    · intro hc
      have := List.mem_of_mem_take hc
      have := (mem_todaysCandidateHexes aircraft store _ h).mp this
      rw [hf] at this
      exact absurd this.1 (by simp)

/-- Witness for C1: the not-found placeholder row for ABC123 (null
registration, source not_found) is selected again by both queries given an
observation of ABC123 in both windows, and a row for DEF456 with non-null
registration is excluded from the recency selector output. -/
theorem c1_null_registration_requeried_witness :
    ([{ hex := "ABC123", registration := .null, type := .null, manufacturer := .null,
        operator := .null, origin_country := .null, last_updated := 0,
        source := .str "not_found" }] : Store).find? (fun x => x.hex == "ABC123") =
      some { hex := "ABC123", registration := .null, type := .null, manufacturer := .null,
             operator := .null, origin_country := .null, last_updated := 0,
             source := .str "not_found" } ∧
    "ABC123" ∈ recentCandidateHexes [⟨some "ABC123", 200⟩]
      [{ hex := "ABC123", registration := .null, type := .null, manufacturer := .null,
         operator := .null, origin_country := .null, last_updated := 0,
         source := .str "not_found" }] 100 ∧
    "ABC123" ∈ todaysCandidateHexes [⟨some "ABC123", 200⟩]
      [{ hex := "ABC123", registration := .null, type := .null, manufacturer := .null,
         operator := .null, origin_country := .null, last_updated := 0,
         source := .str "not_found" }] 150 ∧
    "DEF456" ∉ get_recent_unenriched_hex_codes [⟨some "DEF456", 200⟩]
      [{ hex := "DEF456", registration := .str "N99", type := .null, manufacturer := .null,
         operator := .null, origin_country := .null, last_updated := 0,
         source := .str "adsbdb" }] 300 7 100 := by
  refine ⟨rfl, ?_, ?_, ?_⟩
  · exact ((c1_null_registration_requeried [⟨some "ABC123", 200⟩]
      [{ hex := "ABC123", registration := .null, type := .null, manufacturer := .null,
         operator := .null, origin_country := .null, last_updated := 0,
         source := .str "not_found" }] "ABC123"
      { hex := "ABC123", registration := .null, type := .null, manufacturer := .null,
        operator := .null, origin_country := .null, last_updated := 0,
        source := .str "not_found" } 300 150 100 7 100
      rfl).1 rfl).1 ⟨⟨some "ABC123", 200⟩, List.Mem.head _, rfl, by decide⟩
  · exact (((c1_null_registration_requeried [⟨some "ABC123", 200⟩]
      [{ hex := "ABC123", registration := .null, type := .null, manufacturer := .null,
         operator := .null, origin_country := .null, last_updated := 0,
         source := .str "not_found" }] "ABC123"
      { hex := "ABC123", registration := .null, type := .null, manufacturer := .null,
        operator := .null, origin_country := .null, last_updated := 0,
        source := .str "not_found" } 300 150 100 7 100
      rfl).1 rfl).2).1 ⟨⟨some "ABC123", 200⟩, List.Mem.head _, rfl, by decide⟩
  · exact ((c1_null_registration_requeried [⟨some "DEF456", 200⟩]
      [{ hex := "DEF456", registration := .str "N99", type := .null, manufacturer := .null,
         operator := .null, origin_country := .null, last_updated := 0,
         source := .str "adsbdb" }] "DEF456"
      { hex := "DEF456", registration := .str "N99", type := .null, manufacturer := .null,
        operator := .null, origin_country := .null, last_updated := 0,
        source := .str "adsbdb" } 300 150 100 7 100
      rfl).2 (fun hc => Json.noConfusion hc)).1

/-- Counterexample to claim C5 as stated: an HTTP 200 body whose nested
aircraft object is present but empty is not mapped to a populated result
tagged adsbdb — the truthiness test on the aircraft dict fails and the
lookup client returns None (not-found). -/
theorem c5_counterexample :
    enrich_from_adsbdb (.ok 200 (.obj [("response", .obj [("aircraft", .obj [])])])) =
      .notFound ∧
    LookupResult.notFound ≠ .found (mkEnrichDict (.obj [])) :=
  ⟨rfl, fun hc => LookupResult.noConfusion hc⟩

/-- Claim C5 (amended): for every HTTP 200 response whose body contains a
NON-EMPTY nested aircraft object, the lookup client returns the provider's
registration as registration, icao_type as type, manufacturer as
manufacturer, registered_owner as operator and
registered_owner_country_name as origin_country, with source tagged adsbdb;
an HTTP 200 body with the unknown-aircraft marker, and an HTTP 404, yield
not-found with no error. -/
theorem c5_amended (fs rfields acfields gs : List (String × Json)) (body : Json)
    (h1 : (Json.obj fs).get "response" = .obj rfields)
    (h2 : (Json.obj rfields).get "aircraft" = .obj acfields)
    (h3 : acfields ≠ [])
    (h4 : (Json.obj gs).get "response" = .str "unknown aircraft") :
    enrich_from_adsbdb (.ok 200 (.obj fs)) =
      .found (.obj
        [("registration", (Json.obj acfields).get "registration"),
         ("type", (Json.obj acfields).get "icao_type"),
         ("manufacturer", (Json.obj acfields).get "manufacturer"),
         ("operator", (Json.obj acfields).get "registered_owner"),
         ("origin_country", (Json.obj acfields).get "registered_owner_country_name"),
         ("source", .str "adsbdb")]) ∧
    enrich_from_adsbdb (.ok 200 (.obj gs)) = .notFound ∧
    enrich_from_adsbdb (.ok 404 body) = .notFound := by
  refine ⟨?_, ?_, rfl⟩
  · have : enrich_from_adsbdb (.ok 200 (.obj fs)) = handleBody200 (.obj fs) := rfl
    rw [this, handle200_found fs rfields acfields h1 h2 h3]
    rfl
  · have : enrich_from_adsbdb (.ok 200 (.obj gs)) = handleBody200 (.obj gs) := rfl
    rw [this, handle200_unknown gs h4]

/-- Witness for C5 (amended): a realistic adsbdb body maps B738, Boeing,
Delta Air Lines and United States onto the record fields; the
unknown-aircraft body and a 404 give not-found. -/
theorem c5_amended_witness :
    ((Json.obj [("response", .obj [("aircraft",
        .obj [("registration", .str "N832DN"), ("icao_type", .str "B738"),
              ("manufacturer", .str "Boeing"), ("registered_owner", .str "Delta Air Lines"),
              ("registered_owner_country_name", .str "United States")])])]).get "response" =
      .obj [("aircraft",
        .obj [("registration", .str "N832DN"), ("icao_type", .str "B738"),
              ("manufacturer", .str "Boeing"), ("registered_owner", .str "Delta Air Lines"),
              ("registered_owner_country_name", .str "United States")])]) ∧
    enrich_from_adsbdb (.ok 200 (.obj [("response", .obj [("aircraft",
        .obj [("registration", .str "N832DN"), ("icao_type", .str "B738"),
              ("manufacturer", .str "Boeing"), ("registered_owner", .str "Delta Air Lines"),
              ("registered_owner_country_name", .str "United States")])])])) =
      .found (.obj
        [("registration", .str "N832DN"), ("type", .str "B738"),
         ("manufacturer", .str "Boeing"), ("operator", .str "Delta Air Lines"),
         ("origin_country", .str "United States"), ("source", .str "adsbdb")]) ∧
    enrich_from_adsbdb (.ok 200 (.obj [("response", .str "unknown aircraft")])) = .notFound ∧
    enrich_from_adsbdb (.ok 404 .null) = .notFound := by
  refine ⟨rfl, ?_⟩
  exact c5_amended
    [("response", .obj [("aircraft",
        .obj [("registration", .str "N832DN"), ("icao_type", .str "B738"),
              ("manufacturer", .str "Boeing"), ("registered_owner", .str "Delta Air Lines"),
              ("registered_owner_country_name", .str "United States")])])]
    [("aircraft",
        .obj [("registration", .str "N832DN"), ("icao_type", .str "B738"),
              ("manufacturer", .str "Boeing"), ("registered_owner", .str "Delta Air Lines"),
              ("registered_owner_country_name", .str "United States")])]
    [("registration", .str "N832DN"), ("icao_type", .str "B738"),
     ("manufacturer", .str "Boeing"), ("registered_owner", .str "Delta Air Lines"),
     ("registered_owner_country_name", .str "United States")]
    [("response", .str "unknown aircraft")] .null rfl rfl (by simp) rfl

theorem foldl_max_init_le (l : List Int) : ∀ init : Int, init ≤ l.foldl max init := by
  induction l with
  | nil => intro init; exact le_refl init
  | cons x xs ih =>
    intro init
    exact le_trans (le_max_left init x) (ih (max init x))

theorem foldl_max_mem_le (l : List Int) (x : Int) (hx : x ∈ l) :
    ∀ init : Int, x ≤ l.foldl max init := by
  induction l with
  | nil => exact absurd hx (by simp)
  | cons y ys ih =>
    intro init
    rcases List.mem_cons.mp hx with rfl | hx'
    · exact le_trans (le_max_right init x) (foldl_max_init_le ys (max init x))
    · exact ih hx' (max init y)

theorem foldl_max_choice (l : List Int) : ∀ init : Int,
    l.foldl max init = init ∨ l.foldl max init ∈ l := by
  induction l with
  | nil => intro init; exact Or.inl rfl
  | cons x xs ih =>
    intro init
    rcases ih (max init x) with hc | hc
    · rw [List.foldl_cons, hc]
      rcases max_choice init x with hm | hm
      · exact Or.inl hm
      · exact Or.inr (by rw [hm]; exact List.Mem.head _)
    · exact Or.inr (List.Mem.tail _ (by rw [List.foldl_cons]; exact hc))

theorem le_maxTimestamp (rows : List Obs) (a : Obs) (ha : a ∈ rows) :
    a.timestamp ≤ maxTimestamp rows := by
  cases rows with
  | nil => exact absurd ha (by simp)
  | cons b rest =>
    rw [maxTimestamp]
    rcases List.mem_cons.mp ha with rfl | ha'
    · exact foldl_max_init_le _ _
    · exact foldl_max_mem_le _ _ (List.mem_map_of_mem _ ha') _

theorem maxTimestamp_mem (rows : List Obs) (hne : rows ≠ []) :
    ∃ a ∈ rows, maxTimestamp rows = a.timestamp := by
  cases rows with
  | nil => exact absurd rfl hne
  | cons b rest =>
    rw [maxTimestamp]
    rcases foldl_max_choice (rest.map (fun x => x.timestamp)) b.timestamp with hc | hc
    · exact ⟨b, List.Mem.head _, hc⟩
    · rcases List.mem_map.mp hc with ⟨a, ha, hts⟩
      exact ⟨a, List.Mem.tail _ ha, hts.symm⟩

theorem rowsFor_recentRows (aircraft : List Obs) (store : Store) (cutoff : Int) (h : String)
    (hn : needsEnrichment store h = true) :
    rowsFor (recentRows aircraft store cutoff) h =
      (rowsFor aircraft h).filter (fun a => decide (cutoff < a.timestamp)) := by
  rw [rowsFor, recentRows, rowsFor, List.filter_filter, List.filter_filter]
  apply List.filter_congr
  intro a _
  by_cases hx : (a.hex == some h) = true
  · have hx' : a.hex = some h := by simpa using hx
    rw [hx, hx']
    simp [hn]
  · have hx0 : (a.hex == some h) = false := by simpa using hx
    rw [hx0]
    cases hhex : a.hex with
    | none => simp
    | some g => simp

theorem mem_recentRankedList_eq (aircraft : List Obs) (store : Store) (cutoff : Int)
    (r : Ranked) (hr : r ∈ recentRankedList aircraft store cutoff) :
    r = rankedOf (recentRows aircraft store cutoff) r.hex ∧
      r.hex ∈ groupedHexes (recentRows aircraft store cutoff) := by
  rw [recentRankedList, mem_sortByPrec, List.mem_map] at hr
  rcases hr with ⟨g, hg, rfl⟩
  exact ⟨rfl, hg⟩

theorem recent_last_seen_overall (aircraft : List Obs) (store : Store) (cutoff : Int)
    (r : Ranked) (hr : r ∈ recentRankedList aircraft store cutoff) :
    r.last_seen = maxTimestamp (rowsFor aircraft r.hex) := by
  rcases mem_recentRankedList_eq aircraft store cutoff r hr with ⟨heq, hg⟩
  rw [mem_groupedHexes] at hg
  rcases hg with ⟨a, ha, hx⟩
  rcases (mem_recentRows aircraft store cutoff a).mp ha with ⟨hair, g, hxg, ht, hn⟩
  have hgh : g = r.hex := by
    rw [hxg] at hx
    exact Option.some_inj.mp hx
  rw [hgh] at hxg hn
  have hW : rowsFor (recentRows aircraft store cutoff) r.hex =
      (rowsFor aircraft r.hex).filter (fun a => decide (cutoff < a.timestamp)) :=
    rowsFor_recentRows aircraft store cutoff r.hex hn
  have haW : a ∈ rowsFor (recentRows aircraft store cutoff) r.hex := by
    rw [rowsFor, List.mem_filter]
    exact ⟨ha, by simp [hxg]⟩
  have hWne : rowsFor (recentRows aircraft store cutoff) r.hex ≠ [] := by
    intro hc
    rw [hc] at haW
    exact absurd haW (by simp)
  have hls : r.last_seen = maxTimestamp (rowsFor (recentRows aircraft store cutoff) r.hex) := by
    rw [heq]
    rfl
  rw [hls]
  rcases maxTimestamp_mem _ hWne with ⟨w, hw, hwts⟩
  have hwAll : w ∈ rowsFor aircraft r.hex := by
    rw [hW] at hw
    exact List.mem_of_mem_filter hw
  have hwin : cutoff < w.timestamp := by
    rw [hW] at hw
    have := List.of_mem_filter hw
    simpa using this
  have hAllne : rowsFor aircraft r.hex ≠ [] := by
    intro hc
    rw [hc] at hwAll
    exact absurd hwAll (by simp)
  rcases maxTimestamp_mem _ hAllne with ⟨m, hm, hmts⟩
  have hwm : w.timestamp ≤ maxTimestamp (rowsFor aircraft r.hex) := le_maxTimestamp _ w hwAll
  have hmW : m ∈ rowsFor (recentRows aircraft store cutoff) r.hex := by
    rw [hW, List.mem_filter]
    refine ⟨hm, ?_⟩
    simp only [decide_eq_true_eq]
    calc cutoff < w.timestamp := hwin
      _ ≤ maxTimestamp (rowsFor aircraft r.hex) := hwm
      _ = m.timestamp := hmts
  have hmle : m.timestamp ≤ maxTimestamp (rowsFor (recentRows aircraft store cutoff) r.hex) :=
    le_maxTimestamp _ m hmW
  omega

/-- Counterexample to claim C4 as stated: with hexes XAA and YBB both last
seen at the same instant inside the window, XAA having three observations
in total (two outside the window) and YBB two (both inside), the query
breaks the tie by the in-window COUNT(*) and returns YBB first, while the
claim's tie-break by total observation count puts XAA first. -/
theorem c4_counterexample :
    get_recent_unenriched_hex_codes
      [⟨some "XAA", 900000⟩, ⟨some "XAA", 100000⟩, ⟨some "XAA", 100001⟩,
       ⟨some "YBB", 900000⟩, ⟨some "YBB", 899999⟩] [] 1000000 7 100 = ["YBB", "XAA"] ∧
    recentSelectorClaim
      [⟨some "XAA", 900000⟩, ⟨some "XAA", 100000⟩, ⟨some "XAA", 100001⟩,
       ⟨some "YBB", 900000⟩, ⟨some "YBB", 899999⟩] [] 1000000 7 100 = ["XAA", "YBB"] ∧
    (["YBB", "XAA"] : List String) ≠ ["XAA", "YBB"] :=
  ⟨by decide, by decide, by decide⟩

/-- Claim C4 (amended): the recency selector returns only hex identifiers
needing enrichment with at least one observation strictly newer than now
minus N days; the result rows are ordered by last-seen timestamp descending
(last seen over the window, which equals the hex identifier's most recent
observation outright) with ties broken by the number of observations INSIDE
the window descending (not the total observation count); the output is that
ordered hex column truncated to the batch limit; and with a 7-day window a
hex observed only 10 days ago is excluded while one observed 1 day ago is
returned. -/
theorem c4_recency_selector (aircraft : List Obs) (store : Store) (now : Int)
    (days limit : Nat) :
    (∀ h, h ∈ get_recent_unenriched_hex_codes aircraft store now days limit →
       needsEnrichment store h = true ∧
         ∃ a ∈ aircraft, a.hex = some h ∧ now - 86400 * (days : Int) < a.timestamp) ∧
    (recentRankedList aircraft store (now - 86400 * (days : Int))).Pairwise
      (fun x y => recencyPrec y x = false) ∧
    (∀ r ∈ recentRankedList aircraft store (now - 86400 * (days : Int)),
       r.last_seen = maxTimestamp (rowsFor aircraft r.hex) ∧
       r.ping_count =
         (rowsFor (recentRows aircraft store (now - 86400 * (days : Int))) r.hex).length) ∧
    get_recent_unenriched_hex_codes aircraft store now days limit =
      ((recentRankedList aircraft store (now - 86400 * (days : Int))).map
        (fun r => r.hex)).take limit ∧
    get_recent_unenriched_hex_codes
      [⟨some "X", 1000000 - 10 * 86400⟩, ⟨some "Y", 1000000 - 1 * 86400⟩] [] 1000000 7 100 =
      ["Y"] := by
  refine ⟨?_, ?_, ?_, rfl, by decide⟩
  · intro h hmem
    exact (mem_recentCandidateHexes aircraft store _ h).mp (List.mem_of_mem_take hmem)
  · exact pairwise_sortByPrec recencyPrec recencyPrec_asym recencyPrec_trans _
  · intro r hr
    refine ⟨recent_last_seen_overall aircraft store _ r hr, ?_⟩
    rcases mem_recentRankedList_eq aircraft store _ r hr with ⟨heq, _⟩
    rw [heq]
    rfl

/-- Witness for the amended C4: at the counterexample scenario YBB is in the
selector output, so it needs enrichment and has an in-window observation. -/
theorem c4_recency_selector_witness :
    needsEnrichment [] "YBB" = true ∧
      ∃ a ∈ ([⟨some "XAA", 900000⟩, ⟨some "XAA", 100000⟩, ⟨some "XAA", 100001⟩,
              ⟨some "YBB", 900000⟩, ⟨some "YBB", 899999⟩] : List Obs),
        a.hex = some "YBB" ∧ (1000000 : Int) - 86400 * ((7 : Nat) : Int) < a.timestamp :=
  (c4_recency_selector
    [⟨some "XAA", 900000⟩, ⟨some "XAA", 100000⟩, ⟨some "XAA", 100001⟩,
     ⟨some "YBB", 900000⟩, ⟨some "YBB", 899999⟩] [] 1000000 7 100).1 "YBB" (by decide)

theorem recentRows_backlog (c : Int) (hc : c < 999000) :
    recentRows airBacklog recBacklog c =
      [⟨some "C", 999500⟩, ⟨some "C", 999400⟩, ⟨some "A", 999000⟩] := by
  have h1 : decide (c < 999500) = true := decide_eq_true (by omega)
  have h2 : decide (c < 999400) = true := decide_eq_true (by omega)
  have h3 : decide (c < 999300) = true := decide_eq_true (by omega)
  have h4 : decide (c < 999000) = true := decide_eq_true (by omega)
  have hC : needsEnrichment recBacklog "C" = true := by decide
  have hB : needsEnrichment recBacklog "B" = false := by decide
  have hA : needsEnrichment recBacklog "A" = true := by decide
  rw [recentRows, airBacklog]
  simp only [List.filter_cons, List.filter_nil, h1, h2, h3, h4, hC, hB, hA,
    Bool.and_true, Bool.and_false]
  rfl

theorem recentCandidates_backlog (c : Int) (hc : c < 999000) :
    recentCandidateHexes airBacklog recBacklog c = ["C", "A"] := by
  rw [recentCandidateHexes, recentRankedList, recentRows_backlog c hc]
  decide

theorem take_CA_ne (n : Nat) : (["C", "A"] : List String).take n ≠ ["A", "C"] := by
  match n with
  | 0 => simp
  | 1 => decide
  | (m + 2) =>
    rw [List.take_of_length_le (by simp)]
    decide

/-- Counterexample to claim C8 as stated: on the A,B,C scenario (only B
enriched with a non-null registration) the spec's full-backlog policy would
return A then C ascending, but the code's only two policies — same-day and
recency-windowed, the dispatch in main — both return C then A (count and
recency order), and no full-backlog selector exists in the source. -/
theorem c8_counterexample :
    fullBacklogSpec airBacklog recBacklog = ["A", "C"] ∧
    selectCandidates true airBacklog recBacklog 1000000 999000 7 100 = ["C", "A"] ∧
    selectCandidates false airBacklog recBacklog 1000000 999000 7 100 = ["C", "A"] ∧
    (["C", "A"] : List String) ≠ ["A", "C"] :=
  ⟨by decide, by decide, by decide, by decide⟩

/-- Claim C8 (amended): the source implements no full-backlog policy; its
candidate dispatch offers exactly the same-day and recency-windowed
selectors, both limited and ordered by observation count or recency.  On
the A,B,C scenario the spec-modelled full-backlog policy yields A then C
ascending, while the implemented dispatch never returns that: for every
flag, window and limit it yields a prefix of C then A (the same unenriched
set when the window and limit do not truncate, but in count/recency order,
never ascending by hex). -/
theorem c8_selector_policies (todayOnly : Bool) (days limit : Nat) :
    fullBacklogSpec airBacklog recBacklog = ["A", "C"] ∧
    selectCandidates todayOnly airBacklog recBacklog 1000000 999000 days limit ≠ ["A", "C"] ∧
    (1 ≤ days → 2 ≤ limit →
      selectCandidates todayOnly airBacklog recBacklog 1000000 999000 days limit = ["C", "A"]) := by
  have htoday : todaysCandidateHexes airBacklog recBacklog 999000 = ["C", "A"] := by decide
  refine ⟨by decide, ?_, ?_⟩
  · cases todayOnly with
    | true =>
      rw [selectCandidates, if_pos rfl, get_todays_unenriched_hex_codes, htoday]
      exact take_CA_ne limit
    | false =>
      rw [selectCandidates, if_neg (by simp), get_recent_unenriched_hex_codes]
      cases days with
      | zero =>
        have h0 : recentCandidateHexes airBacklog recBacklog (1000000 - 86400 * ((0 : Nat) : Int)) = [] := by
          decide
        rw [h0]
        simp
      | succ d =>
        have hc : (1000000 : Int) - 86400 * (((d + 1 : Nat)) : Int) < 999000 := by
          push_cast
          omega
        rw [recentCandidates_backlog _ hc]
        exact take_CA_ne limit
  · intro hdays hlimit
    cases todayOnly with
    | true =>
      rw [selectCandidates, if_pos rfl, get_todays_unenriched_hex_codes, htoday]
      exact List.take_of_length_le (by simpa using hlimit)
    | false =>
      rw [selectCandidates, if_neg (by simp), get_recent_unenriched_hex_codes]
      cases days with
      | zero => exact absurd hdays (by omega)
      | succ d =>
        have hc : (1000000 : Int) - 86400 * (((d + 1 : Nat)) : Int) < 999000 := by
          push_cast
          omega
        rw [recentCandidates_backlog _ hc]
        exact List.take_of_length_le (by simpa using hlimit)

/-- Witness for the amended C8: with the default window of 7 days and limit
100 both policies return C then A, never the ascending A then C of the
spec's absent full-backlog mode. -/
theorem c8_selector_policies_witness :
    (fullBacklogSpec airBacklog recBacklog = ["A", "C"] ∧
     selectCandidates false airBacklog recBacklog 1000000 999000 7 100 ≠ ["A", "C"] ∧
     (1 ≤ 7 → 2 ≤ 100 →
       selectCandidates false airBacklog recBacklog 1000000 999000 7 100 = ["C", "A"])) ∧
    selectCandidates false airBacklog recBacklog 1000000 999000 7 100 = ["C", "A"] :=
  ⟨c8_selector_policies false 7 100,
    (c8_selector_policies false 7 100).2.2 (by omega) (by omega)⟩

theorem isNull_eq_false_of_truthy (j : Json) (h : j.truthy = true) : j.isNull = false := by
  cases j with
  | null => exact absurd h (by simp [Json.truthy])
  | str s => rfl
  | num n => rfl
  | bool b => rfl
  | obj fs => rfl
  | arr es => rfl

/-- Counterexample to claim C9 as stated: interrupting after 2 of 5
candidates does leave exactly the 2 committed rows, but main installs no
interrupt handler, so nothing after the loop runs: no partial success
report is emitted (a completed run emits exactly one), no STOPPED-state
reporting exists, and the in-process counters are discarded with the
process. -/
theorem c9_counterexample :
    (mainInterrupted
      (fun _ => Response.ok 200 (.obj [("response", .obj [("aircraft",
        .obj [("registration", .str "N1")])])])) 0 []
      ["AA", "BB", "CC", "DD", "EE"] 2).store.length = 2 ∧
    (mainInterrupted
      (fun _ => Response.ok 200 (.obj [("response", .obj [("aircraft",
        .obj [("registration", .str "N1")])])])) 0 []
      ["AA", "BB", "CC", "DD", "EE"] 2).events.countP Event.isReport = 0 ∧
    (mainCompleted
      (fun _ => Response.ok 200 (.obj [("response", .obj [("aircraft",
        .obj [("registration", .str "N1")])])])) 0 []
      ["AA", "BB", "CC", "DD", "EE"]).events.countP Event.isReport = 1 :=
  ⟨by decide, by decide, by decide⟩

/-- Claim C9 (amended): cancellation at the iteration boundary after k of n
candidates stops all further lookups (exactly the first k candidates were
looked up, in order), leaves exactly the k rows written by this run — each
save committed immediately and independently — and a subsequent
recency-windowed run selects any remaining unenriched candidate again while
excluding every processed candidate whose lookup returned a truthy
registration; however no partial-success report is emitted, because main
has no interrupt handler and the statements after the loop never run. -/
theorem c9_cancellation (net : String → Response) (now : Int) (hexes : List String) (k : Nat)
    (hk : k ≤ hexes.length) (hnd : (hexes.map pyUpper).Nodup) :
    (mainInterrupted net now [] hexes k).events.filter Event.isLookup =
      (hexes.take k).map Event.lookup ∧
    (mainInterrupted net now [] hexes k).events.countP Event.isReport = 0 ∧
    (mainInterrupted net now [] hexes k).store.length = k ∧
    (∀ (h : String) (aircraft : List Obs) (cutoff : Int),
       h ∉ (hexes.take k).map pyUpper →
       (∃ a ∈ aircraft, a.hex = some h ∧ cutoff < a.timestamp) →
       h ∈ recentCandidateHexes aircraft (mainInterrupted net now [] hexes k).store cutoff) ∧
    (∀ (h : String) (d : Json) (aircraft : List Obs) (cutoff : Int),
       h ∈ hexes.take k → pyUpper h = h →
       enrich_from_adsbdb (net h) = .found d → (d.get "registration").truthy = true →
       h ∉ recentCandidateHexes aircraft (mainInterrupted net now [] hexes k).store cutoff) := by
  have hndk : ((hexes.take k).map pyUpper).Nodup := by
    rw [List.map_take]
    exact ((hexes.map pyUpper).take_sublist k).nodup hnd
  refine ⟨?_, ?_, ?_, ?_, ?_⟩
  · rw [mainInterrupted, runLoop_filter_isLookup]
    rfl
  · rw [mainInterrupted, runLoop_countP_report]
    rfl
  · rw [mainInterrupted, runLoop_store_length net now (hexes.take k) (initialRunState [])
      hndk (by intro r hr; exact absurd hr (by simp [initialRunState]))]
    simp [initialRunState, List.length_take]
    omega
  · intro h aircraft cutoff hnot hobs
    have hfind : (mainInterrupted net now [] hexes k).store.find?
        (fun r => r.hex == h) = none := by
      rw [List.find?_eq_none]
      intro r hr
      rcases mem_runLoop_store net now (hexes.take k) (initialRunState []) r hr with hin | ⟨g, hg, rfl⟩
      · exact absurd hin (by simp [initialRunState])
      · intro hc
        have : (savedRecord g (chosenData net g) now).hex = h := by simpa using hc
        apply hnot
        rw [← this]
        exact List.mem_map_of_mem _ hg
    refine (mem_recentCandidateHexes aircraft _ cutoff h).mpr ⟨?_, hobs⟩
    rw [needsEnrichment, hfind]
  · intro h d aircraft cutoff hmem hup henr hreg
    have hfind : (mainInterrupted net now [] hexes k).store.find?
        (fun r => r.hex == pyUpper h) = some (savedRecord h (chosenData net h) now) :=
      runLoop_find?_processed net now (hexes.take k) hndk h hmem (initialRunState [])
    have hch : chosenData net h = d := by
      rw [chosenData, henr]
      exact if_pos hreg
    intro hc
    have := ((mem_recentCandidateHexes aircraft _ cutoff h).mp hc).1
    rw [needsEnrichment, ← hup, hfind, hch] at this
    have h2 : (d.get "registration").isNull = true := this
    rw [isNull_eq_false_of_truthy _ hreg] at h2
    exact absurd h2 (by simp)

/-- Witness for the amended C9: interrupting the five-candidate batch after
two leaves two rows and no report; a later selection still offers a fresh
hex FF and no longer offers the enriched AA. -/
theorem c9_cancellation_witness :
    ((2 : Nat) ≤ (["AA", "BB", "CC", "DD", "EE"] : List String).length ∧
      ((["AA", "BB", "CC", "DD", "EE"] : List String).map pyUpper).Nodup) ∧
    (mainInterrupted
      (fun _ => Response.ok 200 (.obj [("response", .obj [("aircraft",
        .obj [("registration", .str "N1")])])])) 0 []
      ["AA", "BB", "CC", "DD", "EE"] 2).store.length = 2 ∧
    (mainInterrupted
      (fun _ => Response.ok 200 (.obj [("response", .obj [("aircraft",
        .obj [("registration", .str "N1")])])])) 0 []
      ["AA", "BB", "CC", "DD", "EE"] 2).events.countP Event.isReport = 0 ∧
    "FF" ∈ recentCandidateHexes [⟨some "FF", 10⟩]
      (mainInterrupted
        (fun _ => Response.ok 200 (.obj [("response", .obj [("aircraft",
          .obj [("registration", .str "N1")])])])) 0 []
        ["AA", "BB", "CC", "DD", "EE"] 2).store 5 ∧
    "AA" ∉ recentCandidateHexes [⟨some "AA", 10⟩]
      (mainInterrupted
        (fun _ => Response.ok 200 (.obj [("response", .obj [("aircraft",
          .obj [("registration", .str "N1")])])])) 0 []
        ["AA", "BB", "CC", "DD", "EE"] 2).store 5 := by
  refine ⟨⟨by decide, by decide⟩, ?_, ?_, ?_, ?_⟩
  · exact (c9_cancellation
      (fun _ => Response.ok 200 (.obj [("response", .obj [("aircraft",
        .obj [("registration", .str "N1")])])])) 0
      ["AA", "BB", "CC", "DD", "EE"] 2 (by decide) (by decide)).2.2.1
  · exact (c9_cancellation
      (fun _ => Response.ok 200 (.obj [("response", .obj [("aircraft",
        .obj [("registration", .str "N1")])])])) 0
      ["AA", "BB", "CC", "DD", "EE"] 2 (by decide) (by decide)).2.1
  · exact (c9_cancellation
      (fun _ => Response.ok 200 (.obj [("response", .obj [("aircraft",
        .obj [("registration", .str "N1")])])])) 0
      ["AA", "BB", "CC", "DD", "EE"] 2 (by decide) (by decide)).2.2.2.1 "FF"
      [⟨some "FF", 10⟩] 5 (by decide) ⟨⟨some "FF", 10⟩, List.Mem.head _, rfl, by decide⟩
  · exact (c9_cancellation
      (fun _ => Response.ok 200 (.obj [("response", .obj [("aircraft",
        .obj [("registration", .str "N1")])])])) 0
      ["AA", "BB", "CC", "DD", "EE"] 2 (by decide) (by decide)).2.2.2.2 "AA"
      (mkEnrichDict (.obj [("registration", .str "N1")]))
      [⟨some "AA", 10⟩] 5 (by decide) rfl rfl rfl
